import Mathlib

/-!
Shallow embedding of the task-list service (src/main.py, src/modelo.py).

Modelling conventions:
- Python `datetime` values are modelled as `Nat` timestamps.  All datetimes
  in the service are normalised to UTC (the validators replace a missing
  tzinfo by UTC), so time-zone normalisation is the identity in this model
  and datetime comparison is `Nat` comparison.
- Pydantic request models distinguish a field that is absent from the request
  body from a field explicitly set to `null` (`model_dump(exclude_unset=True)`
  keeps only the fields that were set).  Update-request fields are therefore
  `Option (Option _)`: the outer layer is set/unset, the inner layer is
  value/null.
- `Tarea.titulo` is `Option String` because the update handler can assign
  `None` to it (the update model accepts `titulo: null`, and pydantic does not
  validate plain attribute assignment); `Tarea.model_validate` then rejects a
  `None` title.
- `HTTPException`s are modelled by an `Except Nat` error carrying the HTTP
  status code (404 or 422); pydantic `ValidationError` / `ValueError` raised
  by model validation is modelled by `Except String`.
-/

/-- Python `datetime`, normalised to UTC, modelled as a `Nat` timestamp. -/
abbrev DateTime := Nat

/-- `modelo.Tarea`: the stored task entity (fields only; the computed field
`completada` is a function below, it is not stored). -/
structure Tarea where
  id : Nat
  titulo : Option String
  descripcion : Option String
  fecha_creacion : DateTime
  fecha_finalizacion : Option DateTime
deriving Repr, DecidableEq

/-- Title constraint from `TareaBase.titulo`: a string of length in [3, 100].
A `None` title (reachable by the update handler assigning `null`) fails
validation because `Tarea.titulo` is a required `str` field. -/
def tituloValido : Option String → Bool
  | some s => decide (3 ≤ s.length) && decide (s.length ≤ 100)
  | none => false

/-- Description constraint from `TareaBase.descripcion`: optional, length at most 500. -/
def descripcionValida : Option String → Bool
  | some d => decide (d.length ≤ 500)
  | none => true

/-- `Tarea.validar_coherencia_fechas`: if a completion date is present it must
not precede the creation date. -/
def coherenciaFechas (t : Tarea) : Bool :=
  match t.fecha_finalizacion with
  | some f => decide (t.fecha_creacion ≤ f)
  | none => true

/-- All checks run by pydantic when a `Tarea` is constructed or re-validated:
the inherited field constraints of `TareaBase` plus `validar_coherencia_fechas`.
(The `asegurar_utc_en_entrada` field validator is the identity here, since all
model datetimes are already UTC `Nat`s.) -/
def Tarea.valida (t : Tarea) : Bool :=
  tituloValido t.titulo && descripcionValida t.descripcion && coherenciaFechas t

/-- `Tarea.model_validate` / the `Tarea(...)` constructor: returns the task
when every validator passes, otherwise raises a `ValidationError`. -/
def validateTarea (t : Tarea) : Except String Tarea :=
  if t.valida then .ok t
  else .error "validation error"

/-- `Tarea.completada`: computed (never stored) completion flag, evaluated
against the current time `now`.  True iff a completion date is present and is
less than or equal to `now`. -/
def Tarea.completada (t : Tarea) (now : DateTime) : Bool :=
  match t.fecha_finalizacion with
  | none => false
  | some f => decide (f ≤ now)

/-- `modelo.TareaCrear`: the creation request, as delivered to the handler
after pydantic parsing.  Its model validator only normalises time zones, which
is the identity here. -/
structure TareaCrear where
  titulo : String
  descripcion : Option String
  fecha_finalizacion_propuesta : Option DateTime
deriving Repr, DecidableEq

/-- Field constraints checked when a creation request body is parsed into
`TareaCrear`. -/
def TareaCrear.valida (c : TareaCrear) : Bool :=
  tituloValido (some c.titulo) && descripcionValida c.descripcion

/-- `modelo.TareaActualizar` as a raw request body: each field records whether
it was present in the body (outer `Option`) and, if so, whether it was `null`
or a value (inner `Option`).  `model_dump(exclude_unset=True)` keeps exactly
the fields whose outer `Option` is `some`. -/
structure TareaActualizar where
  titulo : Option (Option String)
  descripcion : Option (Option String)
  establecer_completada : Option (Option Bool)
  nueva_fecha_finalizacion : Option (Option DateTime)
deriving Repr, DecidableEq

/-- The value seen by attribute access on the parsed model: an unset field
reads as its default `None`, like a field explicitly set to `null`. -/
def attrVal (x : Option (Option α)) : Option α :=
  x.getD none

/-- `TareaActualizar.validar_actualizacion_finalizacion`: rejects
`establecer_completada = False` combined with a non-`None`
`nueva_fecha_finalizacion`.  (Its time-zone normalisation is the identity
here.) -/
def finalizacionCoherente (u : TareaActualizar) : Bool :=
  !(attrVal u.establecer_completada == some false
      && (attrVal u.nueva_fecha_finalizacion).isSome)

/-- Optional-field constraint on the update model's `titulo`: the length
bounds apply only when a string value is supplied. -/
def tituloActValido : Option (Option String) → Bool
  | some (some s) => decide (3 ≤ s.length) && decide (s.length ≤ 100)
  | _ => true

/-- Optional-field constraint on the update model's `descripcion`. -/
def descripcionActValida : Option (Option String) → Bool
  | some (some d) => decide (d.length ≤ 500)
  | _ => true

/-- Pydantic parsing of an update request body into `TareaActualizar`: field
constraints plus the model validator.  On failure FastAPI rejects the request
before the handler runs. -/
def parseTareaActualizar (u : TareaActualizar) : Except String TareaActualizar :=
  if tituloActValido u.titulo && descripcionActValida u.descripcion
      && finalizacionCoherente u then .ok u
  else .error "validation error"

/-- Lines 112-130 of `actualizar_tarea_existente`: the field-by-field in-place
mutation of the found task, driven by `update_data = model_dump(exclude_unset=True)`.
Python truthiness notes: a `datetime` is always truthy and `None` is falsy, so
`update_data.get("nueva_fecha_finalizacion") or now` is `now` exactly when the
field is unset or set to `null`, and `if not tarea_existente.fecha_finalizacion`
tests the field for `None`. -/
def aplicarActualizacion (now : DateTime) (t : Tarea) (u : TareaActualizar) : Tarea :=
  let t1 := match u.titulo with
    | some v => { t with titulo := v }
    | none => t
  let t2 := match u.descripcion with
    | some v => { t1 with descripcion := v }
    | none => t1
  match u.establecer_completada with
  | some (some true) =>
      if t2.fecha_finalizacion = none then
        { t2 with fecha_finalizacion := some ((attrVal u.nueva_fecha_finalizacion).getD now) }
      else
        match u.nueva_fecha_finalizacion with
        | some v => { t2 with fecha_finalizacion := v }
        | none => t2
  | some (some false) => { t2 with fecha_finalizacion := none }
  | some none => t2
  | none =>
      match u.nueva_fecha_finalizacion with
      | some v => { t2 with fecha_finalizacion := v }
      | none => t2

/-- The in-memory database of `main.py`: the list `db_tareas` and the counter
`siguiente_id_tarea`. -/
structure Store where
  db_tareas : List Tarea
  siguiente_id_tarea : Nat
deriving Repr, DecidableEq

/-- The state at process start: empty list, counter at 1. -/
def storeInicial : Store := ⟨[], 1⟩

/-- `encontrar_tarea_por_id`: linear scan returning the first task with the
given id, or `None`. -/
def encontrar_tarea_por_id (st : Store) (id_tarea : Nat) : Option Tarea :=
  st.db_tareas.find? (fun t => t.id == id_tarea)

/-- Lines 63-79 of `crear_nueva_tarea`: construct the `Tarea` running its
validators (422 on `ValueError`), then append it and increment the counter. -/
def construirYAlmacenar (now : DateTime) (st : Store) (c : TareaCrear) :
    Except Nat (Tarea × Store) :=
  match validateTarea
      { id := st.siguiente_id_tarea
        titulo := some c.titulo
        descripcion := c.descripcion
        fecha_creacion := now
        fecha_finalizacion := c.fecha_finalizacion_propuesta } with
  | .error _ => .error 422
  | .ok nueva => .ok (nueva, ⟨st.db_tareas ++ [nueva], st.siguiente_id_tarea + 1⟩)

/-- `crear_nueva_tarea` (POST /tareas/): rejects a proposed completion date
strictly before `now` with 422 before anything is stored; otherwise constructs
and stores the task.  (A `datetime` is always truthy in Python, so the
`if tarea_para_crear.fecha_finalizacion_propuesta` guard is a presence test.) -/
def crear_nueva_tarea (now : DateTime) (st : Store) (c : TareaCrear) :
    Except Nat (Tarea × Store) :=
  match c.fecha_finalizacion_propuesta with
  | some f =>
      if f < now then .error 422
      else construirYAlmacenar now st c
  | none => construirYAlmacenar now st c

/-- The POST endpoint as (response, resulting store): an `HTTPException`
leaves the store untouched. -/
def postTarea (now : DateTime) (st : Store) (c : TareaCrear) :
    Except Nat Tarea × Store :=
  match crear_nueva_tarea now st c with
  | .error e => (.error e, st)
  | .ok (t, st') => (.ok t, st')

/-- Replace the first list entry whose id matches, as both the aliasing of the
object returned by `encontrar_tarea_por_id` and the `for i, t in enumerate(...)`
replacement loop do. -/
def replaceFirstById (l : List Tarea) (id_tarea : Nat) (t : Tarea) : List Tarea :=
  match l with
  | [] => []
  | x :: xs => if x.id == id_tarea then t :: xs else x :: replaceFirstById xs id_tarea t

/-- `actualizar_tarea_existente` (PUT /tareas/{id}), observationally.  The
handler mutates the found task object in place; that object is aliased into
`db_tareas`, so the store's entry becomes the mutated task even when the
subsequent `Tarea.model_validate` raises and the handler answers 422.  On
success the loop overwrites the same (first-matching) position with the
re-validated task, which has the same field values. -/
def actualizar_tarea_existente (now : DateTime) (st : Store) (id_tarea : Nat)
    (u : TareaActualizar) : Except Nat Tarea × Store :=
  match encontrar_tarea_por_id st id_tarea with
  | none => (.error 404, st)
  | some t =>
      let mutada := aplicarActualizacion now t u
      match validateTarea mutada with
      | .error _ =>
          (.error 422, ⟨replaceFirstById st.db_tareas id_tarea mutada, st.siguiente_id_tarea⟩)
      | .ok validada =>
          (.ok validada, ⟨replaceFirstById st.db_tareas id_tarea validada, st.siguiente_id_tarea⟩)

/-- The PUT endpoint including body parsing: a request body rejected by the
`TareaActualizar` validators never reaches the handler, so the store is
untouched. -/
def putTarea (now : DateTime) (st : Store) (id_tarea : Nat) (u : TareaActualizar) :
    Except Nat Tarea × Store :=
  match parseTareaActualizar u with
  | .error _ => (.error 422, st)
  | .ok u' => actualizar_tarea_existente now st id_tarea u'

/-- `eliminar_tarea_existente` (DELETE /tareas/{id}): 404 when absent,
otherwise filters the task out.  The counter is untouched. -/
def eliminar_tarea_existente (st : Store) (id_tarea : Nat) : Except Nat Unit × Store :=
  match encontrar_tarea_por_id st id_tarea with
  | none => (.error 404, st)
  | some _ =>
      (.ok (), ⟨st.db_tareas.filter (fun t => t.id != id_tarea), st.siguiente_id_tarea⟩)

/-- `obtener_todas_las_tareas` (GET /tareas/): the full list. -/
def obtener_todas_las_tareas (st : Store) : List Tarea :=
  st.db_tareas

/-- `obtener_tarea_especifica` (GET /tareas/{id}). -/
def obtener_tarea_especifica (st : Store) (id_tarea : Nat) : Except Nat Tarea :=
  match encontrar_tarea_por_id st id_tarea with
  | none => .error 404
  | some t => .ok t

/-- One observable state transition of the service: any mutating endpoint
invoked with arbitrary arguments (reads do not change the store). -/
inductive Step : Store → Store → Prop where
  | post (now : DateTime) (c : TareaCrear) (st : Store) :
      Step st (postTarea now st c).2
  | put (now : DateTime) (id_tarea : Nat) (u : TareaActualizar) (st : Store) :
      Step st (putTarea now st id_tarea u).2
  | delete (id_tarea : Nat) (st : Store) :
      Step st (eliminar_tarea_existente st id_tarea).2

/-- Stores reachable from process start. -/
inductive Reachable : Store → Prop where
  | init : Reachable storeInicial
  | step {st st' : Store} : Reachable st → Step st st' → Reachable st'

/-- Store invariant for id management: the counter is positive, every stored
id is positive and below the counter, and stored ids are pairwise distinct. -/
def StoreInv (st : Store) : Prop :=
  1 ≤ st.siguiente_id_tarea ∧
  (∀ i ∈ st.db_tareas.map Tarea.id, 1 ≤ i ∧ i < st.siguiente_id_tarea) ∧
  (st.db_tareas.map Tarea.id).Nodup

/-- Re-submitting a task's GET representation as a PUT body: the JSON keys
`titulo` and `descripcion` are fields of `TareaActualizar` and arrive set to
the task's values; the keys `id`, `fecha_creacion`, `fecha_finalizacion` and
`completada` are not fields of `TareaActualizar` and pydantic ignores them,
so those update fields stay unset. -/
def reenvioComoActualizacion (t : Tarea) : TareaActualizar :=
  ⟨some t.titulo, some t.descripcion, none, none⟩

deriving instance DecidableEq for Except

/-! ### Helper lemmas -/

theorem completada_iff (t : Tarea) (now : DateTime) :
    t.completada now = true ↔ ∃ f, t.fecha_finalizacion = some f ∧ f ≤ now := by
  unfold Tarea.completada
  rcases hf : t.fecha_finalizacion with _ | f
  · simp
  · simp

theorem completada_false_of_future (t : Tarea) (now : DateTime)
    (h : ∀ f, t.fecha_finalizacion = some f → now < f) :
    t.completada now = false := by
  rcases hc : t.completada now
  · rfl
  · obtain ⟨f, hf, hle⟩ := (completada_iff t now).mp hc
    exact absurd (Nat.lt_of_lt_of_le (h f hf) hle) (Nat.lt_irrefl now)

theorem validateTarea_ok {t t' : Tarea} (h : validateTarea t = .ok t') :
    t' = t ∧ t.valida = true := by
  unfold validateTarea at h
  split at h
  · exact ⟨(Except.ok.injEq _ _).mp h |>.symm, by assumption⟩
  · cases h

theorem validateTarea_of_valida {t : Tarea} (h : t.valida = true) :
    validateTarea t = .ok t := by
  unfold validateTarea
  simp [h]

theorem validateTarea_error_of_not_valida {t : Tarea} (h : t.valida = false) :
    validateTarea t = .error "validation error" := by
  unfold validateTarea
  simp [h]

theorem valida_coherencia {t : Tarea} (h : t.valida = true) :
    ∀ f, t.fecha_finalizacion = some f → t.fecha_creacion ≤ f := by
  intro f hf
  unfold Tarea.valida coherenciaFechas at h
  rw [hf] at h
  simp only [Bool.and_eq_true, decide_eq_true_eq] at h
  exact h.2

theorem encontrar_some_id {st : Store} {i : Nat} {t : Tarea}
    (h : encontrar_tarea_por_id st i = some t) : t.id = i := by
  have := List.find?_some h
  simpa using this

theorem aplicar_preserva_id_fecha (now : DateTime) (t : Tarea) (u : TareaActualizar) :
    (aplicarActualizacion now t u).id = t.id ∧
    (aplicarActualizacion now t u).fecha_creacion = t.fecha_creacion := by
  rcases u with ⟨ut, ud, ue, un⟩
  rcases ut with _ | vt <;> rcases ud with _ | vd <;>
    rcases ue with _ | (_ | (_ | _)) <;> rcases un with _ | vn <;>
    simp only [aplicarActualizacion] <;> (try split) <;>
    (first
      | exact ⟨rfl, rfl⟩
      | exact ⟨trivial, rfl⟩
      | exact ⟨rfl, trivial⟩
      | exact ⟨trivial, trivial⟩)

theorem replaceFirstById_length (l : List Tarea) (i : Nat) (t : Tarea) :
    (replaceFirstById l i t).length = l.length := by
  induction l with
  | nil => rfl
  | cons x xs ih =>
      unfold replaceFirstById
      split <;> simp [ih]

theorem replaceFirstById_map_id {l : List Tarea} {i : Nat} {t : Tarea}
    (h : t.id = i) :
    (replaceFirstById l i t).map Tarea.id = l.map Tarea.id := by
  induction l with
  | nil => rfl
  | cons x xs ih =>
      unfold replaceFirstById
      split
      · rename_i hx
        simp only [beq_iff_eq] at hx
        simp [h, hx]
      · simp [ih]

theorem replaceFirstById_getElem_ne {l : List Tarea} {i : Nat} {t : Tarea} :
    ∀ (j : Nat), (∀ x, l[j]? = some x → x.id ≠ i) →
      (replaceFirstById l i t)[j]? = l[j]? := by
  induction l with
  | nil => intro j _; rfl
  | cons x xs ih =>
      intro j hne
      unfold replaceFirstById
      split
      · rename_i hx
        simp only [beq_iff_eq] at hx
        cases j with
        | zero => exact absurd hx (hne x (by simp))
        | succ k => simp
      · cases j with
        | zero => simp
        | succ k =>
            simp only [List.getElem?_cons_succ]
            exact ih k (fun y hy => hne y (by simpa using hy))

theorem replaceFirstById_self {l : List Tarea} {i : Nat} {t : Tarea}
    (h : l.find? (fun x => x.id == i) = some t) :
    replaceFirstById l i t = l := by
  induction l with
  | nil => cases h
  | cons x xs ih =>
      unfold replaceFirstById
      rw [List.find?_cons] at h
      split
      · rename_i hx
        rw [hx] at h
        cases h
        rfl
      · rename_i hx
        rw [Bool.not_eq_true] at hx
        rw [hx] at h
        rw [ih h]

theorem crear_ok_spec {now : DateTime} {st : Store} {c : TareaCrear} {t : Tarea}
    {st' : Store} (h : crear_nueva_tarea now st c = .ok (t, st')) :
    t.id = st.siguiente_id_tarea ∧
    st'.siguiente_id_tarea = st.siguiente_id_tarea + 1 ∧
    st'.db_tareas = st.db_tareas ++ [t] ∧
    t.fecha_creacion = now ∧
    t.valida = true := by
  have hrest : construirYAlmacenar now st c = .ok (t, st') →
      t.id = st.siguiente_id_tarea ∧
      st'.siguiente_id_tarea = st.siguiente_id_tarea + 1 ∧
      st'.db_tareas = st.db_tareas ++ [t] ∧
      t.fecha_creacion = now ∧
      t.valida = true := by
    intro h2
    unfold construirYAlmacenar at h2
    split at h2
    · cases h2
    · rename_i nueva hv
      obtain ⟨rfl, hval⟩ := validateTarea_ok hv
      cases h2
      exact ⟨rfl, rfl, rfl, rfl, hval⟩
  unfold crear_nueva_tarea at h
  split at h
  · split at h
    · cases h
    · exact hrest h
  · exact hrest h

theorem actualizar_ok_spec {now : DateTime} {st : Store} {i : Nat}
    {u : TareaActualizar} {t' : Tarea} {st₂ : Store}
    (h : actualizar_tarea_existente now st i u = (.ok t', st₂)) :
    ∃ t, encontrar_tarea_por_id st i = some t ∧
      t' = aplicarActualizacion now t u ∧ t'.valida = true ∧
      st₂ = ⟨replaceFirstById st.db_tareas i t', st.siguiente_id_tarea⟩ := by
  unfold actualizar_tarea_existente at h
  split at h
  · cases h
  · rename_i t hfind
    dsimp only at h
    split at h
    · rename_i hv
      simp at h
    · rename_i validada hv
      obtain ⟨rfl, hval⟩ := validateTarea_ok hv
      injection h with h1 h2
      injection h1 with h1
      subst h1
      subst h2
      exact ⟨t, hfind, rfl, hval, rfl⟩

/-! ### Claims -/

/-- C1: the claim says an update either fully succeeds or fails with a
ValidationError leaving the stored record identical to what it was.  The code
violates this: the handler mutates the found task object in place and that
object is aliased into `db_tareas`, so when the subsequent re-validation
raises, the 422 is returned but the store now holds the mutated record.  At
the input below (stored task with `fecha_creacion = 100` and no completion
date; update setting `nueva_fecha_finalizacion = 50`) the response is 422 yet
the stored record's `fecha_finalizacion` has become `some 50`. -/
theorem c1_actualizacion_no_atomica :
    (putTarea 200 ⟨[⟨1, some "Tarea", none, 100, none⟩], 2⟩ 1
        ⟨none, none, none, some (some 50)⟩).1 = .error 422 ∧
    (putTarea 200 ⟨[⟨1, some "Tarea", none, 100, none⟩], 2⟩ 1
        ⟨none, none, none, some (some 50)⟩).2 =
      ⟨[⟨1, some "Tarea", none, 100, some 50⟩], 2⟩ ∧
    (putTarea 200 ⟨[⟨1, some "Tarea", none, 100, none⟩], 2⟩ 1
        ⟨none, none, none, some (some 50)⟩).2 ≠
      ⟨[⟨1, some "Tarea", none, 100, none⟩], 2⟩ := by
  decide

/-- C2: `completada` evaluated at time `now` is true iff `fecha_finalizacion`
is present and at most `now`; it is false when the date is absent or strictly
in the future; and, being recomputed at every read from the stored dates only,
the same unmodified task flips from false to true once a future completion
date passes, without any write. -/
theorem c2_completada_derivada (t : Tarea) (now now1 now2 : DateTime) :
    (t.completada now = true ↔ ∃ f, t.fecha_finalizacion = some f ∧ f ≤ now) ∧
    (t.fecha_finalizacion = none → t.completada now = false) ∧
    (∀ f, t.fecha_finalizacion = some f → now < f → t.completada now = false) ∧
    (∀ f, t.fecha_finalizacion = some f → now1 < f → f ≤ now2 →
      t.completada now1 = false ∧ t.completada now2 = true) := by
  refine ⟨completada_iff t now, ?_, ?_, ?_⟩
  · intro h
    apply completada_false_of_future
    intro f hf
    rw [h] at hf
    cases hf
  · intro f hf hlt
    apply completada_false_of_future
    intro f' hf'
    rw [hf] at hf'
    cases hf'
    exact hlt
  · intro f hf h1 h2
    refine ⟨?_, (completada_iff t now2).mpr ⟨f, hf, h2⟩⟩
    apply completada_false_of_future
    intro f' hf'
    rw [hf] at hf'
    cases hf'
    exact h1

theorem c2_completada_derivada_witness :
    (⟨1, some "abc", none, 0, some 5⟩ : Tarea).completada 3 = false ∧
    (⟨1, some "abc", none, 0, some 5⟩ : Tarea).completada 7 = true :=
  (c2_completada_derivada ⟨1, some "abc", none, 0, some 5⟩ 3 3 7).2.2.2 5 rfl
    (by decide) (by decide)

/-- C4: a creation request whose proposed completion date is strictly earlier
than the handling time fails with 422; nothing is appended and the id counter
is untouched (the store is returned exactly as it was). -/
theorem c4_creacion_fecha_pasada (now : DateTime) (st : Store) (c : TareaCrear)
    (f : DateTime) (hf : c.fecha_finalizacion_propuesta = some f) (hlt : f < now) :
    crear_nueva_tarea now st c = .error 422 ∧
    postTarea now st c = (.error 422, st) := by
  have h1 : crear_nueva_tarea now st c = .error 422 := by
    simp [crear_nueva_tarea, hf, hlt]
  refine ⟨h1, ?_⟩
  unfold postTarea
  rw [h1]

theorem c4_creacion_fecha_pasada_witness :
    crear_nueva_tarea 10 storeInicial ⟨"Tarea X", none, some 5⟩ = .error 422 ∧
    postTarea 10 storeInicial ⟨"Tarea X", none, some 5⟩ = (.error 422, storeInicial) :=
  c4_creacion_fecha_pasada 10 storeInicial ⟨"Tarea X", none, some 5⟩ 5 rfl (by decide)

/-- C5: an update request combining `establecer_completada = false` with a
present (non-null) `nueva_fecha_finalizacion` is rejected by the request
model's validator, so it never reaches the handler: the response is 422 and
the store — in particular the targeted record — is unchanged, for every
store, id and processing time. -/
theorem c5_reabrir_con_fecha (u : TareaActualizar) (v : DateTime)
    (hset : u.establecer_completada = some (some false))
    (hnew : u.nueva_fecha_finalizacion = some (some v)) :
    parseTareaActualizar u = .error "validation error" ∧
    ∀ now st i, putTarea now st i u = (.error 422, st) := by
  have hp : parseTareaActualizar u = .error "validation error" := by
    have hc : finalizacionCoherente u = false := by
      unfold finalizacionCoherente
      rw [hset, hnew]
      rfl
    unfold parseTareaActualizar
    simp [hc]
  refine ⟨hp, fun now st i => ?_⟩
  unfold putTarea
  rw [hp]

theorem c5_reabrir_con_fecha_witness :
    parseTareaActualizar ⟨none, none, some (some false), some (some 7)⟩ =
      .error "validation error" ∧
    putTarea 9 storeInicial 1 ⟨none, none, some (some false), some (some 7)⟩ =
      (.error 422, storeInicial) := by
  have h := c5_reabrir_con_fecha ⟨none, none, some (some false), some (some 7)⟩ 7 rfl rfl
  exact ⟨h.1, h.2 9 storeInicial 1⟩

/-- C3: every task accepted by construction (`Tarea(...)` in the create
handler, or `Tarea.model_validate` directly) or by the post-update
revalidation satisfies: a present completion date is at least the creation
date; and any candidate task violating this is rejected with a
ValidationError by the validators. -/
theorem c3_invariante_fechas :
    (∀ t t' : Tarea, validateTarea t = .ok t' →
      ∀ f, t'.fecha_finalizacion = some f → t'.fecha_creacion ≤ f) ∧
    (∀ now st c t st', crear_nueva_tarea now st c = .ok (t, st') →
      ∀ f, t.fecha_finalizacion = some f → t.fecha_creacion ≤ f) ∧
    (∀ now st i u t', (actualizar_tarea_existente now st i u).1 = .ok t' →
      ∀ f, t'.fecha_finalizacion = some f → t'.fecha_creacion ≤ f) ∧
    (∀ t : Tarea, (∃ f, t.fecha_finalizacion = some f ∧ f < t.fecha_creacion) →
      validateTarea t = .error "validation error") := by
  refine ⟨?_, ?_, ?_, ?_⟩
  · intro t t' h f hf
    obtain ⟨rfl, hval⟩ := validateTarea_ok h
    exact valida_coherencia hval f hf
  · intro now st c t st' h f hf
    obtain ⟨_, _, _, _, hval⟩ := crear_ok_spec h
    exact valida_coherencia hval f hf
  · intro now st i u t' h f hf
    have hp : actualizar_tarea_existente now st i u =
        (.ok t', (actualizar_tarea_existente now st i u).2) := by
      rw [← h]
    obtain ⟨t0, _, _, hval, _⟩ := actualizar_ok_spec hp
    exact valida_coherencia hval f hf
  · intro t ⟨f, hf, hlt⟩
    apply validateTarea_error_of_not_valida
    have hnle : ¬ t.fecha_creacion ≤ f := not_le.mpr hlt
    simp [Tarea.valida, coherenciaFechas, hf, hnle]

theorem c3_invariante_fechas_witness :
    ((⟨1, some "abc", none, 5, some 9⟩ : Tarea).fecha_creacion ≤ 9) ∧
    validateTarea ⟨1, some "abc", none, 5, some 3⟩ = .error "validation error" :=
  ⟨c3_invariante_fechas.1 ⟨1, some "abc", none, 5, some 9⟩
      ⟨1, some "abc", none, 5, some 9⟩ (by decide) 9 rfl,
    c3_invariante_fechas.2.2.2 ⟨1, some "abc", none, 5, some 3⟩ ⟨3, rfl, by decide⟩⟩

/-- C8: an update with `establecer_completada = true` applied to a pending
task (no completion date) and without a supplied `nueva_fecha_finalizacion`
stamps the task's completion date with the processing time `now`: this is
what the mutation step produces, and whenever the handler succeeds on such a
request the returned task carries `fecha_finalizacion = some now`. -/
theorem c8_completar_pendiente (now : DateTime) (t : Tarea) (u : TareaActualizar)
    (hpend : t.fecha_finalizacion = none)
    (hset : u.establecer_completada = some (some true))
    (hnew : u.nueva_fecha_finalizacion = none) :
    (aplicarActualizacion now t u).fecha_finalizacion = some now ∧
    (∀ st i t', encontrar_tarea_por_id st i = some t →
      (actualizar_tarea_existente now st i u).1 = .ok t' →
      t'.fecha_finalizacion = some now) := by
  have hmut : (aplicarActualizacion now t u).fecha_finalizacion = some now := by
    unfold aplicarActualizacion
    rw [hset]
    rcases u.titulo with _ | vt <;> rcases u.descripcion with _ | vd <;>
      simp [hpend, hnew, attrVal]
  refine ⟨hmut, ?_⟩
  intro st i t' hfind h
  have hp : actualizar_tarea_existente now st i u =
      (.ok t', (actualizar_tarea_existente now st i u).2) := by
    rw [← h]
  obtain ⟨t0, hfind0, ht', _, _⟩ := actualizar_ok_spec hp
  rw [hfind0] at hfind
  cases hfind
  rw [ht']
  exact hmut

theorem c8_completar_pendiente_witness :
    (aplicarActualizacion 150 ⟨1, some "Tarea", none, 100, none⟩
      ⟨none, none, some (some true), none⟩).fecha_finalizacion = some 150 :=
  (c8_completar_pendiente 150 ⟨1, some "Tarea", none, 100, none⟩
    ⟨none, none, some (some true), none⟩ rfl rfl rfl).1

/-- C6: a successful creation assigns the new task the current
`siguiente_id_tarea`, increments the counter by one, and appends the task at
the end of the list (preserving insertion order); consequently, creating
task A (id 1) and task B (id 2) from the initial store and then deleting
id 1 leaves exactly [B] in the list, and looking up id 1 reports absence. -/
theorem c6_insertar_asigna_id_y_borrar :
    (∀ now st c t st', crear_nueva_tarea now st c = .ok (t, st') →
      t.id = st.siguiente_id_tarea ∧
      st'.siguiente_id_tarea = st.siguiente_id_tarea + 1 ∧
      st'.db_tareas = st.db_tareas ++ [t]) ∧
    ((postTarea 10 storeInicial ⟨"Tarea A", none, none⟩).1 =
      .ok ⟨1, some "Tarea A", none, 10, none⟩ ∧
    (postTarea 11 (postTarea 10 storeInicial ⟨"Tarea A", none, none⟩).2
        ⟨"Tarea B", none, none⟩).1 = .ok ⟨2, some "Tarea B", none, 11, none⟩ ∧
    obtener_todas_las_tareas (eliminar_tarea_existente
        (postTarea 11 (postTarea 10 storeInicial ⟨"Tarea A", none, none⟩).2
          ⟨"Tarea B", none, none⟩).2 1).2 =
      [⟨2, some "Tarea B", none, 11, none⟩] ∧
    encontrar_tarea_por_id (eliminar_tarea_existente
        (postTarea 11 (postTarea 10 storeInicial ⟨"Tarea A", none, none⟩).2
          ⟨"Tarea B", none, none⟩).2 1).2 1 = none) := by
  constructor
  · intro now st c t st' h
    obtain ⟨h1, h2, h3, _, _⟩ := crear_ok_spec h
    exact ⟨h1, h2, h3⟩
  · decide

theorem c6_insertar_asigna_id_y_borrar_witness :
    (⟨1, some "Tarea A", none, 10, none⟩ : Tarea).id = storeInicial.siguiente_id_tarea ∧
    (⟨[⟨1, some "Tarea A", none, 10, none⟩], 2⟩ : Store).siguiente_id_tarea =
      storeInicial.siguiente_id_tarea + 1 ∧
    (⟨[⟨1, some "Tarea A", none, 10, none⟩], 2⟩ : Store).db_tareas =
      storeInicial.db_tareas ++ [⟨1, some "Tarea A", none, 10, none⟩] :=
  c6_insertar_asigna_id_y_borrar.1 10 storeInicial ⟨"Tarea A", none, none⟩
    ⟨1, some "Tarea A", none, 10, none⟩ ⟨[⟨1, some "Tarea A", none, 10, none⟩], 2⟩
    (by decide)

/-- C7: a successful update overwrites the matching entry in place: the list
keeps its length, the counter is unchanged, the resulting list is the
original with the first id-matching position overwritten by the updated
task, and every position holding a non-matching id is untouched.
Concretely, updating B's fields by id in [A, B, C] yields [A, B2, C]. -/
theorem c7_reemplazo_preserva_posicion :
    (∀ now st i u t' st₂, actualizar_tarea_existente now st i u = (.ok t', st₂) →
      st₂.db_tareas.length = st.db_tareas.length ∧
      st₂.siguiente_id_tarea = st.siguiente_id_tarea ∧
      st₂.db_tareas = replaceFirstById st.db_tareas i t' ∧
      (∀ j : Nat, (∀ x, st.db_tareas[j]? = some x → x.id ≠ i) →
        st₂.db_tareas[j]? = st.db_tareas[j]?)) ∧
    putTarea 20 ⟨[⟨1, some "Tarea A", none, 10, none⟩, ⟨2, some "Tarea B", none, 11, none⟩,
        ⟨3, some "Tarea C", none, 12, none⟩], 4⟩ 2 ⟨some (some "Tarea B2"), none, none, none⟩ =
      (.ok ⟨2, some "Tarea B2", none, 11, none⟩,
        ⟨[⟨1, some "Tarea A", none, 10, none⟩, ⟨2, some "Tarea B2", none, 11, none⟩,
          ⟨3, some "Tarea C", none, 12, none⟩], 4⟩) := by
  constructor
  · intro now st i u t' st₂ h
    obtain ⟨t0, hfind, ht', hval, hst⟩ := actualizar_ok_spec h
    subst hst
    refine ⟨replaceFirstById_length _ _ _, rfl, rfl, ?_⟩
    intro j hj
    exact replaceFirstById_getElem_ne j hj
  · decide

theorem c7_reemplazo_preserva_posicion_witness :
    (⟨[⟨1, some "Tarea A", none, 10, none⟩, ⟨2, some "Tarea B2", none, 11, none⟩,
        ⟨3, some "Tarea C", none, 12, none⟩], 4⟩ : Store).db_tareas.length =
      (⟨[⟨1, some "Tarea A", none, 10, none⟩, ⟨2, some "Tarea B", none, 11, none⟩,
        ⟨3, some "Tarea C", none, 12, none⟩], 4⟩ : Store).db_tareas.length :=
  (c7_reemplazo_preserva_posicion.1 20
    ⟨[⟨1, some "Tarea A", none, 10, none⟩, ⟨2, some "Tarea B", none, 11, none⟩,
      ⟨3, some "Tarea C", none, 12, none⟩], 4⟩ 2
    ⟨some (some "Tarea B2"), none, none, none⟩
    ⟨2, some "Tarea B2", none, 11, none⟩
    ⟨[⟨1, some "Tarea A", none, 10, none⟩, ⟨2, some "Tarea B2", none, 11, none⟩,
      ⟨3, some "Tarea C", none, 12, none⟩], 4⟩ (by decide)).1

theorem tituloActValido_of_valido {x : Option String} (h : tituloValido x = true) :
    tituloActValido (some x) = true := by
  cases x with
  | none => simp [tituloValido] at h
  | some s => simpa [tituloValido, tituloActValido] using h

theorem descripcionActValida_of_valida {x : Option String} (h : descripcionValida x = true) :
    descripcionActValida (some x) = true := by
  cases x with
  | none => rfl
  | some d => simpa [descripcionValida, descripcionActValida] using h

theorem parse_reenvio {t : Tarea} (hval : t.valida = true) :
    parseTareaActualizar (reenvioComoActualizacion t) =
      .ok (reenvioComoActualizacion t) := by
  unfold Tarea.valida at hval
  simp only [Bool.and_eq_true] at hval
  obtain ⟨⟨ht, hd⟩, _⟩ := hval
  have h1 := tituloActValido_of_valido ht
  have h2 := descripcionActValida_of_valida hd
  unfold parseTareaActualizar reenvioComoActualizacion
  unfold reenvioComoActualizacion at h1 h2
  simp only [h1, h2]
  rfl

/-- C9: round trip — re-submitting a task's GET representation as a PUT body
succeeds and returns the identical task, leaving the store exactly as it was
(pydantic keeps the body's `titulo` and `descripcion`, which carry the same
values; the remaining JSON keys are not `TareaActualizar` fields and are
ignored, so the completion state is untouched).  Moreover no update ever
writes `id` or `fecha_creacion`: the mutation step preserves both fields,
and every successful update returns a task whose `id` and `fecha_creacion`
equal those of the task that was found in the store. -/
theorem c9_ida_y_vuelta (now : DateTime) (st : Store) (i : Nat) (t : Tarea)
    (hget : obtener_tarea_especifica st i = .ok t)
    (hval : t.valida = true) :
    putTarea now st i (reenvioComoActualizacion t) = (.ok t, st) ∧
    (∀ now2 t2 u, (aplicarActualizacion now2 t2 u).id = t2.id ∧
      (aplicarActualizacion now2 t2 u).fecha_creacion = t2.fecha_creacion) ∧
    (∀ now2 st2 i2 u t' st₂ t0, actualizar_tarea_existente now2 st2 i2 u = (.ok t', st₂) →
      encontrar_tarea_por_id st2 i2 = some t0 →
      t'.id = t0.id ∧ t'.fecha_creacion = t0.fecha_creacion) := by
  have hfind : encontrar_tarea_por_id st i = some t := by
    unfold obtener_tarea_especifica at hget
    split at hget
    · cases hget
    · rename_i t2 hf
      injection hget with h
      rw [h] at hf
      exact hf
  have hfind2 : st.db_tareas.find? (fun x => x.id == i) = some t := hfind
  refine ⟨?_, fun now2 t2 u => aplicar_preserva_id_fecha now2 t2 u, ?_⟩
  · have hmut : aplicarActualizacion now t (reenvioComoActualizacion t) = t := rfl
    unfold putTarea
    rw [parse_reenvio hval]
    unfold actualizar_tarea_existente
    rw [hfind]
    dsimp only
    rw [hmut, validateTarea_of_valida hval]
    dsimp only
    rw [replaceFirstById_self hfind2]
  · intro now2 st2 i2 u t' st₂ t0 h hfind0
    obtain ⟨t1, hfind1, ht', _, _⟩ := actualizar_ok_spec h
    rw [hfind0] at hfind1
    injection hfind1 with h1
    subst h1
    rw [ht']
    exact aplicar_preserva_id_fecha now2 t0 u

theorem c9_ida_y_vuelta_witness :
    putTarea 99 ⟨[⟨1, some "abc", none, 5, some 9⟩], 2⟩ 1
        (reenvioComoActualizacion ⟨1, some "abc", none, 5, some 9⟩) =
      (.ok ⟨1, some "abc", none, 5, some 9⟩, ⟨[⟨1, some "abc", none, 5, some 9⟩], 2⟩) :=
  (c9_ida_y_vuelta 99 ⟨[⟨1, some "abc", none, 5, some 9⟩], 2⟩ 1
    ⟨1, some "abc", none, 5, some 9⟩ (by decide) (by decide)).1

theorem storeInv_of_map_id_eq {st st₂ : Store}
    (hmap : st₂.db_tareas.map Tarea.id = st.db_tareas.map Tarea.id)
    (hsig : st₂.siguiente_id_tarea = st.siguiente_id_tarea)
    (h : StoreInv st) : StoreInv st₂ := by
  obtain ⟨h1, h2, h3⟩ := h
  refine ⟨hsig ▸ h1, ?_, hmap ▸ h3⟩
  intro i hi
  rw [hmap] at hi
  rw [hsig]
  exact h2 i hi

theorem storeInv_post {st : Store} (h : StoreInv st) (now : DateTime) (c : TareaCrear) :
    StoreInv (postTarea now st c).2 := by
  unfold postTarea
  rcases hc : crear_nueva_tarea now st c with e | ⟨t, st₂⟩
  · exact h
  · obtain ⟨hid, hsig, hdb, _, _⟩ := crear_ok_spec hc
    obtain ⟨h1, h2, h3⟩ := h
    dsimp only
    refine ⟨?_, ?_, ?_⟩
    · rw [hsig]
      exact Nat.le_succ_of_le h1
    · intro i hi
      rw [hdb, List.map_append] at hi
      rw [hsig]
      rcases List.mem_append.mp hi with hi | hi
      · have := h2 i hi
        exact ⟨this.1, Nat.lt_succ_of_lt this.2⟩
      · rw [List.map_singleton, List.mem_singleton] at hi
        subst hi
        rw [hid]
        exact ⟨h1, Nat.lt_succ_self _⟩
    · rw [hdb, List.map_append, List.nodup_append]
      refine ⟨h3, List.nodup_singleton _, ?_⟩
      intro a ha hb
      rw [List.map_singleton, List.mem_singleton] at hb
      subst hb
      have := (h2 _ ha).2
      rw [hid] at this
      exact absurd this (Nat.lt_irrefl _)

theorem putTarea_map_id_sig (now : DateTime) (st : Store) (i : Nat) (u : TareaActualizar) :
    (putTarea now st i u).2.db_tareas.map Tarea.id = st.db_tareas.map Tarea.id ∧
    (putTarea now st i u).2.siguiente_id_tarea = st.siguiente_id_tarea := by
  unfold putTarea
  rcases parseTareaActualizar u with e | u2
  · exact ⟨rfl, rfl⟩
  · unfold actualizar_tarea_existente
    rcases hf : encontrar_tarea_por_id st i with _ | t
    · exact ⟨rfl, rfl⟩
    · dsimp only
      have hid : t.id = i := encontrar_some_id hf
      have hmid : (aplicarActualizacion now t u2).id = i := by
        rw [(aplicar_preserva_id_fecha now t u2).1, hid]
      rcases hv : validateTarea (aplicarActualizacion now t u2) with e | validada
      · exact ⟨replaceFirstById_map_id hmid, rfl⟩
      · obtain ⟨rfl, _⟩ := validateTarea_ok hv
        exact ⟨replaceFirstById_map_id hmid, rfl⟩

theorem eliminar_sublist_sig (st : Store) (i : Nat) :
    ((eliminar_tarea_existente st i).2.db_tareas.map Tarea.id).Sublist
      (st.db_tareas.map Tarea.id) ∧
    (eliminar_tarea_existente st i).2.siguiente_id_tarea = st.siguiente_id_tarea := by
  unfold eliminar_tarea_existente
  rcases encontrar_tarea_por_id st i with _ | t
  · exact ⟨List.Sublist.refl _, rfl⟩
  · exact ⟨(List.filter_sublist _).map _, rfl⟩

theorem storeInv_step {st st₂ : Store} (h : StoreInv st) (hs : Step st st₂) :
    StoreInv st₂ := by
  cases hs with
  | post now c _ => exact storeInv_post h now c
  | put now i u _ =>
      have hp := putTarea_map_id_sig now st i u
      exact storeInv_of_map_id_eq hp.1 hp.2 h
  | delete i _ =>
      have hd := eliminar_sublist_sig st i
      obtain ⟨h1, h2, h3⟩ := h
      refine ⟨hd.2 ▸ h1, ?_, h3.sublist hd.1⟩
      intro j hj
      rw [hd.2]
      exact h2 j (hd.1.subset hj)

theorem storeInv_reachable {st : Store} (h : Reachable st) : StoreInv st := by
  induction h with
  | init =>
      refine ⟨Nat.le_refl 1, ?_, List.nodup_nil⟩
      intro i hi
      cases hi
  | step _ hs ih => exact storeInv_step ih hs

theorem step_siguiente_mono {st st₂ : Store} (hs : Step st st₂) :
    st.siguiente_id_tarea ≤ st₂.siguiente_id_tarea := by
  cases hs with
  | post now c _ =>
      unfold postTarea
      rcases hc : crear_nueva_tarea now st c with e | ⟨t, st₃⟩
      · exact Nat.le_refl _
      · obtain ⟨_, hsig, _, _, _⟩ := crear_ok_spec hc
        dsimp only
        rw [hsig]
        exact Nat.le_succ _
  | put now i u _ =>
      rw [(putTarea_map_id_sig now st i u).2]
  | delete i _ =>
      rw [(eliminar_sublist_sig st i).2]

/-- C10: task ids are never reused.  The counter starts at 1; every observable
transition leaves it equal or larger (it grows only on successful creation,
and deletion leaves it untouched); in every reachable store all stored ids
are positive, below the counter and pairwise distinct; and a task created
from a reachable store receives an id strictly greater than every id
currently stored. -/
theorem c10_ids_no_reutilizados :
    storeInicial.siguiente_id_tarea = 1 ∧
    (∀ st st₂ : Store, Step st st₂ → st.siguiente_id_tarea ≤ st₂.siguiente_id_tarea) ∧
    (∀ st i, (eliminar_tarea_existente st i).2.siguiente_id_tarea =
      st.siguiente_id_tarea) ∧
    (∀ st, Reachable st → StoreInv st) ∧
    (∀ st now c t st', Reachable st → crear_nueva_tarea now st c = .ok (t, st') →
      ∀ i ∈ st.db_tareas.map Tarea.id, i < t.id) := by
  refine ⟨rfl, fun st st₂ hs => step_siguiente_mono hs,
    fun st i => (eliminar_sublist_sig st i).2,
    fun st h => storeInv_reachable h, ?_⟩
  intro st now c t st' hr hc i hi
  obtain ⟨hid, _, _, _, _⟩ := crear_ok_spec hc
  have h2 := (storeInv_reachable hr).2.1 i hi
  rw [hid]
  exact h2.2

theorem c10_ids_no_reutilizados_witness : StoreInv storeInicial :=
  c10_ids_no_reutilizados.2.2.2.1 storeInicial Reachable.init
